import Mathlib

/-!
Shallow embedding of the qtune control core (`qtune/parameter_tuner.py`,
`qtune/autotuner.py`, `qtune/chrg_diag.py`) and verification of the frozen
claims about it.

Modelling conventions:
* A pandas `Series` of voltages is an association list `List (String × ℚ)`;
  its `.index` is `·.map Prod.fst`.
* Parameter/observable values may be NaN: they are embedded as `Option ℚ`
  with `none` playing the role of `NaN` (pandas comparisons with NaN are
  `False`, arithmetic with NaN propagates NaN, which the `Option` helpers
  below reproduce).
* Device/measurement collaborators (`Experiment`, the evaluators, the
  measured scan data) are not part of the control core; their observable
  outputs enter the model as oracle functions (`EvalEnv`, `MeasureEnv`), and
  device writes are recorded as explicit commands.
* Python exceptions are embedded as `Except String`.
-/

abbrev Series := List (String × ℚ)

/-- Series of values that may be NaN (`none` = NaN). -/
abbrev OSeries := List (String × Option ℚ)

/-- NaN-propagating subtraction (pandas `a - b` on scalars). -/
def subO : Option ℚ → Option ℚ → Option ℚ
  | some x, some y => some (x - y)
  | _, _ => none

/-- NaN-propagating absolute value (pandas `.abs()`). -/
def absO : Option ℚ → Option ℚ
  | some x => some |x|
  | none => none

/-- pandas `.fillna(d)` on a scalar. -/
def fillna (d : ℚ) : Option ℚ → ℚ
  | some x => x
  | none => d

/-- `x < tol.fillna(np.inf)`: a NaN tolerance is replaced by `+∞`, so the
comparison is always true there. -/
def ltFillInf (x : ℚ) : Option ℚ → Bool
  | none => true
  | some t => decide (x < t)

/-- pandas `.le`: `x ≤ y`, false as soon as either side is NaN. -/
def leO : Option ℚ → Option ℚ → Bool
  | some x, some y => decide (x ≤ y)
  | _, _ => false

/-- One row of a solver target frame: columns `desired`, `tolerance`,
`minimum`, `cost_threshold`; an absent cell is NaN (`none`). -/
structure TargetRow where
  desired : Option ℚ
  tolerance : Option ℚ
  minimum : Option ℚ
  cost_threshold : Option ℚ
deriving DecidableEq, Repr

/-- One gradient estimator of a `NewtonSolver`, as seen by the control core:
only its recorded operating point (`current_position`, possibly `None`) is
consulted by `autotuner.py`. -/
structure GradientEstimator where
  current_position : Option Series
deriving DecidableEq, Repr

/-- Modelled from the spec: `solver.py` is not part of the given sources, so
the `Solver` collaborator is embedded by its boundary visible from
`parameter_tuner.py` and `autotuner.py`: it owns the target frame and a
current operating point, `NewtonSolver`s additionally own gradient
estimators; `suggest_next_position()` returns the stored `suggested` step
and `update_after_step` ingests exactly the forwarded sample, which the
model records in `update_log`. -/
structure Solver where
  target : List (String × TargetRow)
  current_position : Series
  isNewton : Bool
  gradient_estimators : List GradientEstimator
  suggested : Series
  update_log : List (OSeries × OSeries × OSeries)
deriving DecidableEq, Repr

/-- `Solver.update_after_step(voltages, parameters, variances)`: the sample
forwarded by a tuner, recorded verbatim. -/
def Solver.update_after_step (s : Solver) (v p var : OSeries) : Solver :=
  { s with update_log := s.update_log ++ [(v, p, var)] }

/-- State of a `SubsetTuner` (`parameter_tuner.py`). -/
structure SubsetTuner where
  gates : List String
  solver : Solver
  tuned_voltages : List Series
  last_voltage : Option Series
  last_parameter_values : OSeries
  last_parameter_covariances : OSeries
deriving DecidableEq, Repr

/-- `SubsetTuner.is_tuned(voltages)`.  `measured`/`variances` are the values
returned by `self.evaluate()`, i.e. the concatenated evaluator outputs; the
code reindexes them by `self.parameters = solver.target.index`.  Returns the
boolean result together with the mutated tuner. -/
def SubsetTuner.is_tuned (t : SubsetTuner) (voltages : Series)
    (measured variances : String → Option ℚ) : Bool × SubsetTuner :=
  let names := t.solver.target.map Prod.fst
  let current_parameters : OSeries := names.map fun n => (n, measured n)
  let current_variances : OSeries := names.map fun n => (n, variances n)
  let solver := t.solver.update_after_step
    (voltages.map fun e => (e.1, some e.2)) current_parameters current_variances
  let idx := t.last_parameter_values.map Prod.fst
  let lpv : OSeries := idx.map fun n => (n, (current_parameters.lookup n).join)
  let lpc : OSeries := idx.map fun n => (n, (current_variances.lookup n).join)
  let tuned := t.solver.target.all fun e =>
    ltFillInf (fillna 0 (absO (subO e.2.desired (measured e.1)))) e.2.tolerance
  if tuned then
    (true, { t with solver := solver, tuned_voltages := t.tuned_voltages ++ [voltages],
                    last_voltage := some voltages,
                    last_parameter_values := lpv, last_parameter_covariances := lpc })
  else
    (false, { t with solver := solver,
                     last_voltage := some voltages,
                     last_parameter_values := lpv, last_parameter_covariances := lpc })

/-- The tuned criterion exactly as claim C1 states it: every target
observable satisfies `|desired − measured| < tolerance`, a NaN tolerance
meaning unconstrained; a NaN difference satisfies nothing. -/
def claimTunedCond (target : List (String × TargetRow)) (m : String → Option ℚ) : Bool :=
  target.all fun e =>
    match e.2.tolerance with
    | none => true
    | some tol =>
      match e.2.desired, m e.1 with
      | some d, some mm => decide (|d - mm| < tol)
      | _, _ => false

/-- The tuned criterion the code actually implements, stated independently of
the pandas pipeline: NaN tolerance means unconstrained, and a NaN difference
(NaN desired or NaN measurement) is treated as zero error, hence satisfied
exactly when the tolerance is positive. -/
def amendedTunedCond (target : List (String × TargetRow)) (m : String → Option ℚ) : Bool :=
  target.all fun e =>
    match e.2.tolerance with
    | none => true
    | some tol =>
      match e.2.desired, m e.1 with
      | some d, some mm => decide (|d - mm| < tol)
      | _, _ => decide ((0 : ℚ) < tol)

/-- Outputs of the evaluation collaborators during one `is_tuned` call:
`measured`/`variances` is the (concatenated) cheap-evaluator sample, and for
a `SensingDotTuner`, `exp_measured`/`exp_variances` is the sample the
expensive evaluators would produce if run. -/
structure EvalEnv where
  measured : String → Option ℚ
  variances : String → Option ℚ
  exp_measured : String → Option ℚ
  exp_variances : String → Option ℚ

/-- pandas-style partial voltage write: entries of `s` overwrite matching
keys of `d`; keys of `s` unknown to `d` are appended (spec §6 requires a
read immediately after a write to reflect the write). -/
def setGates (d s : Series) : Series :=
  (d.map fun e =>
    match s.lookup e.1 with
    | some v => (e.1, v)
    | none => e)
  ++ s.filter fun e => (d.lookup e.1).isNone

/-- pandas `a.add(b, fill_value=0)`: values added over the union of the
indexes, a missing cell counting as 0.  (pandas sorts the union index; no
use in this development observes the order, only lookups by key.) -/
def seriesAdd (a b : Series) : Series :=
  (a.map fun e => (e.1, e.2 + (b.lookup e.1).getD 0))
  ++ (b.filter fun e => (a.lookup e.1).isNone).map fun e => (e.1, (a.lookup e.1).getD 0 + e.2)

/-- pandas `old[new.index ∩ old.index] = new`: update the entries of `old`
at the keys of `new`, in place. -/
def updateAt (old new : OSeries) : OSeries :=
  old.map fun e =>
    match new.lookup e.1 with
    | some v => (e.1, v)
    | none => e

/-- State of a `SensingDotTuner` (`parameter_tuner.py`).  `cheap_names` /
`expensive_names` are the (sorted, concatenated) parameter names produced by
the cheap resp. expensive evaluators. -/
structure SensingDotTuner where
  gates : List String
  solver : Solver
  tuned_voltages : List Series
  last_voltage : Option Series
  last_parameter_values : OSeries
  last_parameter_covariances : OSeries
  cheap_names : List String
  expensive_names : List String
deriving DecidableEq, Repr

/-- Result of `SensingDotTuner.is_tuned`: the boolean answer, the mutated
tuner, and whether the expensive evaluators were run. -/
structure SensingResult where
  tuned : Bool
  tuner : SensingDotTuner
  expensive_run : Bool
deriving DecidableEq, Repr

/-- Column `f` of the tuner's target frame at observable `n` (NaN when the
observable is not a target row or the cell is absent). -/
def SensingDotTuner.targetCol (t : SensingDotTuner) (f : TargetRow → Option ℚ)
    (n : String) : Option ℚ :=
  (t.solver.target.lookup n).bind f

/-- `SensingDotTuner.is_tuned(voltages)`.  The `.le` alignment of the cheap
sample against a target column is over the union of both indexes, but a row
present on one side only compares NaN and yields `False`, so `.any` is
decided by the cheap sample's own rows. -/
def SensingDotTuner.is_tuned (t : SensingDotTuner) (voltages : Series)
    (env : EvalEnv) : SensingResult :=
  let current_parameter : OSeries := t.cheap_names.map fun n => (n, env.measured n)
  let variances : OSeries := t.cheap_names.map fun n => (n, env.variances n)
  let solver_voltages : OSeries := t.gates.map fun g => (g, voltages.lookup g)
  let t1 := { t with last_voltage := some voltages,
                     last_parameter_values := updateAt t.last_parameter_values current_parameter,
                     last_parameter_covariances := updateAt t.last_parameter_covariances variances }
  if current_parameter.any fun e => leO e.2 (t.targetCol TargetRow.minimum e.1) then
    if current_parameter.any fun e => leO e.2 (t.targetCol TargetRow.cost_threshold e.1) then
      let cp2 : OSeries := t.expensive_names.map fun n => (n, env.exp_measured n)
      let var2 : OSeries := t.expensive_names.map fun n => (n, env.exp_variances n)
      ⟨false,
       { t1 with last_parameter_values := updateAt t1.last_parameter_values cp2,
                 last_parameter_covariances := updateAt t1.last_parameter_covariances var2,
                 solver := t1.solver.update_after_step solver_voltages cp2 var2 },
       true⟩
    else
      ⟨false,
       { t1 with solver := t1.solver.update_after_step solver_voltages current_parameter variances },
       false⟩
  else
    ⟨true, { t1 with tuned_voltages := t1.tuned_voltages ++ [voltages] }, false⟩

/-- The cheap sample breaches column `f` of the target: some observable of
the cheap evaluation has a value at or below that (present) threshold. -/
def cheapBreaches (t : SensingDotTuner) (env : EvalEnv) (f : TargetRow → Option ℚ) : Prop :=
  ∃ n ∈ t.cheap_names, ∃ x y : ℚ,
    env.measured n = some x ∧ t.targetCol f n = some y ∧ x ≤ y

instance (t : SensingDotTuner) (env : EvalEnv) (f : TargetRow → Option ℚ) :
    Decidable (cheapBreaches t env f) := by
  unfold cheapBreaches
  have : ∀ n : String, Decidable (∃ x y : ℚ,
      env.measured n = some x ∧ t.targetCol f n = some y ∧ x ≤ y) := by
    intro n
    rcases hm : env.measured n with _ | x
    · exact .isFalse (by rintro ⟨x, y, hx, -, -⟩; exact Option.noConfusion hx)
    · rcases ht : t.targetCol f n with _ | y
      · exact .isFalse (by rintro ⟨x', y', -, hy, -⟩; exact Option.noConfusion hy)
      · exact decidable_of_iff (x ≤ y) (by
          constructor
          · intro h; exact ⟨x, y, rfl, rfl, h⟩
          · rintro ⟨x', y', hx', hy', h⟩
            cases hx'; cases hy'; exact h)
  exact List.decidableBEx _ _

/-- The closed set of `ParameterTuner` variants a tuning hierarchy holds. -/
inductive Tuner where
  | subset : SubsetTuner → Tuner
  | sensing : SensingDotTuner → Tuner
deriving DecidableEq, Repr

/-- Dynamic dispatch of `is_tuned` over the tuner variants. -/
def Tuner.is_tuned (t : Tuner) (env : EvalEnv) (voltages : Series) : Bool × Tuner :=
  match t with
  | .subset s =>
    let r := s.is_tuned voltages env.measured env.variances
    (r.1, .subset r.2)
  | .sensing s =>
    let r := s.is_tuned voltages env
    (r.tuned, .sensing r.tuner)

/-- `tuned_voltages` of either variant. -/
def Tuner.tuned_voltages : Tuner → List Series
  | .subset s => s.tuned_voltages
  | .sensing s => s.tuned_voltages

/-- `last_voltages` accessor of either variant (backing field `_last_voltage`). -/
def Tuner.last_voltage : Tuner → Option Series
  | .subset s => s.last_voltage
  | .sensing s => s.last_voltage

/-- `solver` accessor of either variant. -/
def Tuner.solver : Tuner → Solver
  | .subset s => s.solver
  | .sensing s => s.solver

/-- `tunable_gates` is only declared by a `SubsetTuner`
(`isinstance(par_tuner, SubsetTuner)` dispatch in `ready_to_tune`). -/
def Tuner.gatesIfSubset : Tuner → Option (List String)
  | .subset s => some s.gates
  | .sensing _ => none

/-- `get_next_voltages` of either variant: `SubsetTuner` merges the solver
step into the last full control state, `SensingDotTuner` adds it. -/
def Tuner.get_next_voltages : Tuner → Series
  | .subset s => setGates (s.last_voltage.getD []) s.solver.suggested
  | .sensing s => seriesAdd (s.last_voltage.getD []) s.solver.suggested

/-- State of the `Autotuner` (`autotuner.py`) together with the gate
voltages the `Experiment` collaborator currently reports. -/
structure Autotuner where
  experiment_gates : Series
  tuning_hierarchy : List Tuner
  current_tuner_index : Nat
  current_tuner_status : Bool
  voltage_to_set : Option Series
  hdf5_storage_path : Option String
deriving DecidableEq, Repr

/-- Device-facing and persistence-facing side effects of one `iterate()`
call, in order. -/
inductive Cmd where
  | setV : Series → Cmd
  | checkpoint : Autotuner → Cmd
deriving DecidableEq, Repr

/-- `set(xs).issubset(set(ys))`. -/
def subsetOfB (xs ys : List String) : Bool :=
  xs.all fun x => ys.contains x

/-- The per-gradient-estimator body of the `ready_to_tune` loop: the
recorded operating point (when present) must use known gates, and for a
`SubsetTuner` its tunable gates are checked against the estimator's
operating point — accessing `.index` of a `None` position there raises. -/
def geCheck (all_gates : List String) (subGates : Option (List String))
    (ge : GradientEstimator) : Except String Bool :=
  let ok1 := match ge.current_position with
    | some p => subsetOfB (p.map Prod.fst) all_gates
    | none => true
  match subGates with
  | some gs =>
    match ge.current_position with
    | some p => .ok (ok1 && subsetOfB gs (p.map Prod.fst))
    | none => .error "AttributeError: NoneType object has no attribute index"
  | none => .ok ok1

/-- Conjunction of `geCheck` over all gradient estimators, in order. -/
def geChecks (all_gates : List String) (subGates : Option (List String)) :
    List GradientEstimator → Except String Bool
  | [] => .ok true
  | ge :: rest =>
    match geCheck all_gates subGates ge with
    | .error e => .error e
    | .ok b =>
      match geChecks all_gates subGates rest with
      | .error e => .error e
      | .ok r => .ok (b && r)

/-- The per-stage body of the `ready_to_tune` loop: the stage's last-known
control state and its Solver's operating point must use known gates, and
for a `NewtonSolver` the per-estimator checks run as well. -/
def tunerCheck (all_gates : List String) (t : Tuner) : Except String Bool :=
  match (match t.solver.isNewton with
         | true => geChecks all_gates t.gatesIfSubset t.solver.gradient_estimators
         | false => .ok true) with
  | .error e => .error e
  | .ok ok3 =>
    .ok ((match t.last_voltage with
          | some lv => subsetOfB (lv.map Prod.fst) all_gates
          | none => true)
         && subsetOfB (t.solver.current_position.map Prod.fst) all_gates
         && ok3)

/-- Conjunction of `tunerCheck` over the hierarchy, in order (the Python
loop keeps scanning after a failure, accumulating `naming_coherent`). -/
def hierarchyChecks (all_gates : List String) : List Tuner → Except String Bool
  | [] => .ok true
  | t :: rest =>
    match tunerCheck all_gates t with
    | .error e => .error e
    | .ok b =>
      match hierarchyChecks all_gates rest with
      | .error e => .error e
      | .ok r => .ok (b && r)

/-- The `assert set(self._voltage_to_set.index).issubset(all_gates)` guard
at the top of `ready_to_tune`. -/
def Autotuner.assertOk (a : Autotuner) : Bool :=
  match a.voltage_to_set with
  | some v => subsetOfB (v.map Prod.fst) (a.experiment_gates.map Prod.fst)
  | none => true

/-- `Autotuner.ready_to_tune()`. -/
def Autotuner.ready_to_tune (a : Autotuner) : Except String Bool :=
  match a.assertOk with
  | true => hierarchyChecks (a.experiment_gates.map Prod.fst) a.tuning_hierarchy
  | false => .error "AssertionError"

/-- `Autotuner.is_tuning_complete()`. -/
def Autotuner.is_tuning_complete (a : Autotuner) : Bool :=
  a.current_tuner_index == a.tuning_hierarchy.length

/-- `Autotuner.save_current_status()`: enqueues one checkpoint of the full
current state when an HDF5 storage path is configured, nothing otherwise. -/
def Autotuner.saveCmds (a : Autotuner) : List Cmd :=
  match a.hdf5_storage_path with
  | some _ => [Cmd.checkpoint a]
  | none => []

/-- `Autotuner.iterate()`: one transition of the driver state machine,
returning the new state and the ordered device/persistence commands, or the
raised error.  The `APPLY_VOLTAGE` branch evaluates
`hierarchy[0].last_voltages[voltage_to_set.index]` for its log line, which
raises when the hierarchy is empty or the first stage has no recorded
control state. -/
def Autotuner.iterate (a : Autotuner) (env : EvalEnv) :
    Except String (Autotuner × List Cmd) :=
  match a.ready_to_tune with
  | .error e => .error e
  | .ok ready =>
    if ready = false then
      .error "The setup of the Autotuner class is incomplete!"
    else if a.is_tuning_complete then
      .error "The tuning is already complete!"
    else
      match a.voltage_to_set with
      | some v =>
        match a.tuning_hierarchy.head? with
        | none => .error "IndexError: list index out of range"
        | some t0 =>
          match t0.last_voltage with
          | none => .error "TypeError: NoneType object is not subscriptable"
          | some _ =>
            let a1 := { a with experiment_gates := setGates a.experiment_gates v,
                               current_tuner_index := 0,
                               voltage_to_set := none }
            .ok (a1, Cmd.setV v :: a1.saveCmds)
      | none =>
        if a.current_tuner_status = false then
          match a.tuning_hierarchy[a.current_tuner_index]? with
          | none => .error "IndexError: list index out of range"
          | some t =>
            let r := t.is_tuned env a.experiment_gates
            let a1 :=
              if r.1 then
                { a with tuning_hierarchy :=
                           a.tuning_hierarchy.set a.current_tuner_index r.2,
                         current_tuner_index := a.current_tuner_index + 1 }
              else
                { a with tuning_hierarchy :=
                           a.tuning_hierarchy.set a.current_tuner_index r.2,
                         current_tuner_status := true }
            .ok (a1, a1.saveCmds)
        else
          match a.tuning_hierarchy[a.current_tuner_index]? with
          | none => .error "IndexError: list index out of range"
          | some t =>
            let a1 := { a with voltage_to_set := some t.get_next_voltages,
                               current_tuner_status := false }
            .ok (a1, a1.saveCmds)

/-- State of a `ChargeDiagram` (`chrg_diag.py`): the DQD collaborator's gate
voltages plus the last measured lead-transition positions. -/
structure ChargeDiagram where
  dqd_gates : Series
  position_lead_A : ℚ
  position_lead_B : ℚ
deriving DecidableEq, Repr

/-- Measurement collaborator for `chrg_diag.py`: the lead-transition
position each line scan (through `find_lead_transition`) would report, as a
function of the gate voltages the device holds when the scan runs. -/
structure MeasureEnv where
  leadA : Series → ℚ
  leadB : Series → ℚ

/-- `ChargeDiagram.measure_positions()`: reads the gate voltages, detunes
`RFB`, scans lead A, detunes `RFA`, scans lead B, then commands the device
back to the entry voltages.  Returns the mutated state with both positions. -/
def ChargeDiagram.measure_positions (c : ChargeDiagram) (env : MeasureEnv) :
    ChargeDiagram × ℚ × ℚ :=
  let current_gate_voltages := c.dqd_gates
  let d1 := setGates c.dqd_gates [("RFB", -4/1000)]
  let pA := env.leadA d1
  let d2 := setGates d1 [("RFA", -4/1000)]
  let pB := env.leadB d2
  let d3 := setGates d2 current_gate_voltages
  ({ c with dqd_gates := d3, position_lead_A := pA, position_lead_B := pB }, pA, pB)

/-- The four finite-difference quotients of `calculate_gradient`, from the
measured positions `(pos_A, pos_B)` at the four detunings. -/
def gradFrom (r1 r2 r3 r4 : ℚ × ℚ) : ℚ × ℚ × ℚ × ℚ :=
  ((r1.1 - r2.1) / (3/1000), (r3.1 - r4.1) / (3/1000),
   (r1.2 - r2.2) / (3/1000), (r3.2 - r4.2) / (3/1000))

/-- `ChargeDiagram.calculate_gradient()`: finite differences of the lead
positions under `±3e-3` detunings of `BA` and `BB`, restoring the entry
voltages at the end.  Returns the mutated state and the 2×2 gradient
`(g00, g01, g10, g11)`. -/
def ChargeDiagram.calculate_gradient (c : ChargeDiagram) (env : MeasureEnv) :
    ChargeDiagram × (ℚ × ℚ × ℚ × ℚ) :=
  let cur := c.dqd_gates
  let BA_inc := seriesAdd cur [("BA", 3/1000)]
  let BA_dec := seriesAdd cur [("BA", -(3/1000))]
  let BB_inc := seriesAdd cur [("BB", 3/1000)]
  let BB_dec := seriesAdd cur [("BB", -(3/1000))]
  let r1 := ChargeDiagram.measure_positions { c with dqd_gates := setGates c.dqd_gates BA_inc } env
  let r2 := ChargeDiagram.measure_positions { r1.1 with dqd_gates := setGates r1.1.dqd_gates BA_dec } env
  let r3 := ChargeDiagram.measure_positions { r2.1 with dqd_gates := setGates r2.1.dqd_gates BB_inc } env
  let r4 := ChargeDiagram.measure_positions { r3.1 with dqd_gates := setGates r3.1.dqd_gates BB_dec } env
  ({ r4.1 with dqd_gates := setGates r4.1.dqd_gates cur },
   gradFrom r1.2 r2.2 r3.2 r4.2)

/-- Euclidean norm of a 2-vector (`np.linalg.norm`). -/
noncomputable def norm2 (v : ℝ × ℝ) : ℝ :=
  Real.sqrt (v.1 ^ 2 + v.2 ^ 2)

/-- The unique solution of the 2×2 system `G · du = e`
(`np.linalg.solve(grad, e)` for an invertible `grad`). -/
noncomputable def solve2 (g00 g01 g10 g11 e0 e1 : ℝ) : ℝ × ℝ :=
  let det := g00 * g11 - g01 * g10
  ((g11 * e0 - g01 * e1) / det, (g00 * e1 - g10 * e0) / det)

open scoped Classical in
/-- The step clipping of `center_diagram`:
`if norm(du) > 3e-3: du = du*3e-3/norm(du)`. -/
noncomputable def clipStep (du : ℝ × ℝ) : ℝ × ℝ :=
  if norm2 du > 3/1000 then (du.1 * (3/1000) / norm2 du, du.2 * (3/1000) / norm2 du)
  else du

open scoped Classical in
/-- One step proposal of the `center_diagram` loop body: solve
`grad · du = current_position - central_position` with `np.linalg.solve`
(which raises `LinAlgError` on a singular matrix), then clip the result to
the maximum step norm `3e-3`. -/
noncomputable def centerStep (g00 g01 g10 g11 e0 e1 : ℝ) : Except String (ℝ × ℝ) :=
  if g00 * g11 - g01 * g10 = 0 then .error "LinAlgError: Singular matrix"
  else .ok (clipStep (solve2 g00 g01 g10 g11 e0 e1))

theorem lookup_isSome_of_mem_keys {α : Type} {l : List (String × α)} {k : String}
    (h : k ∈ l.map Prod.fst) : (l.lookup k).isSome = true := by
  induction l with
  | nil => simp at h
  | cons e rest ih =>
    rcases e with ⟨a, v⟩
    by_cases hk : (k == a) = true
    · simp [List.lookup, hk]
    · simp only [List.map_cons, List.mem_cons] at h
      rcases h with h | h
      · exact absurd (beq_iff_eq.mpr h) hk
      · simpa [List.lookup, hk] using ih h

theorem lookup_eq_none_of_not_mem_keys {α : Type} {l : List (String × α)} {k : String}
    (h : k ∉ l.map Prod.fst) : l.lookup k = none := by
  induction l with
  | nil => rfl
  | cons e rest ih =>
    rcases e with ⟨a, v⟩
    simp only [List.map_cons, List.mem_cons, not_or] at h
    have hk : (k == a) = false := beq_eq_false_iff_ne.mpr h.1
    simpa [List.lookup, hk] using ih h.2

theorem setGates_keys (d s : Series) (h : ∀ k ∈ s.map Prod.fst, k ∈ d.map Prod.fst) :
    (setGates d s).map Prod.fst = d.map Prod.fst := by
  unfold setGates
  have hfilter : (s.filter fun e => (d.lookup e.1).isNone) = [] := by
    refine List.filter_eq_nil_iff.mpr fun e he => ?_
    have := lookup_isSome_of_mem_keys (l := d) (k := e.1)
      (h e.1 (List.mem_map.mpr ⟨e, he, rfl⟩))
    rcases Option.isSome_iff_exists.mp this with ⟨v, hv⟩
    simp [hv]
  rw [hfilter, List.append_nil, List.map_map]
  refine List.map_congr_left fun e _ => ?_
  rcases hl : s.lookup e.1 with _ | v <;> simp [hl]

theorem seriesAdd_keys (a b : Series) (h : ∀ k ∈ b.map Prod.fst, k ∈ a.map Prod.fst) :
    (seriesAdd a b).map Prod.fst = a.map Prod.fst := by
  unfold seriesAdd
  have hfilter : (b.filter fun e => (a.lookup e.1).isNone) = [] := by
    refine List.filter_eq_nil_iff.mpr fun e he => ?_
    have := lookup_isSome_of_mem_keys (l := a) (k := e.1)
      (h e.1 (List.mem_map.mpr ⟨e, he, rfl⟩))
    rcases Option.isSome_iff_exists.mp this with ⟨v, hv⟩
    simp [hv]
  rw [hfilter, List.map_nil, List.append_nil, List.map_map]
  rfl

theorem setGates_restore_map (d c : Series) (hkeys : d.map Prod.fst = c.map Prod.fst)
    (hnodup : (c.map Prod.fst).Nodup) :
    (d.map fun e => match c.lookup e.1 with | some v => (e.1, v) | none => e) = c := by
  induction d generalizing c with
  | nil =>
    have : c = [] := List.map_eq_nil_iff.mp hkeys.symm
    simp [this]
  | cons e rest ih =>
    rcases e with ⟨k, v⟩
    rcases c with _ | ⟨⟨k', w⟩, c'⟩
    · simp at hkeys
    · simp only [List.map_cons, List.cons.injEq] at hkeys
      obtain ⟨hk, hrest⟩ := hkeys
      subst hk
      simp only [List.map_cons, List.nodup_cons] at hnodup
      have hknot : k ∉ c'.map Prod.fst := hnodup.1
      have hhead : (((k, w) :: c') : Series).lookup k = some w := by
        simp [List.lookup]
      have htail : (rest.map fun e =>
          match (((k, w) :: c') : Series).lookup e.1 with
          | some v => (e.1, v) | none => e) =
          rest.map fun e => match c'.lookup e.1 with | some v => (e.1, v) | none => e := by
        refine List.map_congr_left fun e he => ?_
        have hmem : e.1 ∈ c'.map Prod.fst := by
          rw [← hrest]
          exact List.mem_map.mpr ⟨e, he, rfl⟩
        have hne : (e.1 == k) = false :=
          beq_eq_false_iff_ne.mpr fun hEq => hknot (hEq ▸ hmem)
        simp [List.lookup, hne]
      simp only [List.map_cons, hhead, htail]
      rw [ih c' hrest hnodup.2]

theorem setGates_restore (d c : Series) (hkeys : d.map Prod.fst = c.map Prod.fst)
    (hnodup : (c.map Prod.fst).Nodup) : setGates d c = c := by
  unfold setGates
  have hfilter : (c.filter fun e => (d.lookup e.1).isNone) = [] := by
    refine List.filter_eq_nil_iff.mpr fun e he => ?_
    have hmem : e.1 ∈ d.map Prod.fst := by
      rw [hkeys]; exact List.mem_map.mpr ⟨e, he, rfl⟩
    have := lookup_isSome_of_mem_keys hmem
    rcases Option.isSome_iff_exists.mp this with ⟨v, hv⟩
    simp [hv]
  rw [hfilter, List.append_nil, setGates_restore_map d c hkeys hnodup]

theorem measure_positions_dqd (c : ChargeDiagram) (env : MeasureEnv)
    (hA : "RFA" ∈ c.dqd_gates.map Prod.fst)
    (hB : "RFB" ∈ c.dqd_gates.map Prod.fst)
    (hnodup : (c.dqd_gates.map Prod.fst).Nodup) :
    (c.measure_positions env).1.dqd_gates = c.dqd_gates := by
  show setGates (setGates (setGates c.dqd_gates [("RFB", -4/1000)]) [("RFA", -4/1000)])
        c.dqd_gates = c.dqd_gates
  have h1 : (setGates c.dqd_gates [("RFB", -4/1000)]).map Prod.fst
      = c.dqd_gates.map Prod.fst := by
    refine setGates_keys _ _ fun k hk => ?_
    simp only [List.map_cons, List.map_nil, List.mem_singleton] at hk
    exact hk ▸ hB
  have h2 : (setGates (setGates c.dqd_gates [("RFB", -4/1000)]) [("RFA", -4/1000)]).map Prod.fst
      = c.dqd_gates.map Prod.fst := by
    rw [setGates_keys _ _ fun k hk => ?_, h1]
    simp only [List.map_cons, List.map_nil, List.mem_singleton] at hk
    rw [h1]
    exact hk ▸ hA
  exact setGates_restore _ _ h2 hnodup

theorem calculate_gradient_dqd (c : ChargeDiagram) (env : MeasureEnv)
    (hA : "RFA" ∈ c.dqd_gates.map Prod.fst)
    (hB : "RFB" ∈ c.dqd_gates.map Prod.fst)
    (hBA : "BA" ∈ c.dqd_gates.map Prod.fst)
    (hBB : "BB" ∈ c.dqd_gates.map Prod.fst)
    (hnodup : (c.dqd_gates.map Prod.fst).Nodup) :
    (c.calculate_gradient env).1.dqd_gates = c.dqd_gates := by
  have kset : ∀ gs s : Series, gs.map Prod.fst = c.dqd_gates.map Prod.fst →
      s.map Prod.fst = c.dqd_gates.map Prod.fst →
      (setGates gs s).map Prod.fst = c.dqd_gates.map Prod.fst := by
    intro gs s h1 h2
    rw [setGates_keys gs s fun k hk => by rw [h1, ← h2]; exact hk, h1]
  have kadd : ∀ (x : String) (v : ℚ), x ∈ c.dqd_gates.map Prod.fst →
      (seriesAdd c.dqd_gates [(x, v)]).map Prod.fst = c.dqd_gates.map Prod.fst := by
    intro x v hx
    refine seriesAdd_keys _ _ fun k hk => ?_
    simp only [List.map_cons, List.map_nil, List.mem_singleton] at hk
    exact hk ▸ hx
  have hmk : ∀ (gs : Series) (pA pB : ℚ), gs.map Prod.fst = c.dqd_gates.map Prod.fst →
      ((ChargeDiagram.mk gs pA pB).measure_positions env).1.dqd_gates = gs := by
    intro gs pA pB h
    exact measure_positions_dqd ⟨gs, pA, pB⟩ env (by rw [h]; exact hA)
      (by rw [h]; exact hB) (by rw [h]; exact hnodup)
  have k1 : (setGates c.dqd_gates (seriesAdd c.dqd_gates [("BA", 3/1000)])).map Prod.fst
      = c.dqd_gates.map Prod.fst := kset _ _ rfl (kadd _ _ hBA)
  simp only [ChargeDiagram.calculate_gradient]
  rw [hmk _ _ _ k1]
  have k2 : (setGates (setGates c.dqd_gates (seriesAdd c.dqd_gates [("BA", 3/1000)]))
      (seriesAdd c.dqd_gates [("BA", -(3/1000))])).map Prod.fst
      = c.dqd_gates.map Prod.fst := kset _ _ k1 (kadd _ _ hBA)
  rw [hmk _ _ _ k2]
  have k3 : (setGates (setGates (setGates c.dqd_gates (seriesAdd c.dqd_gates [("BA", 3/1000)]))
      (seriesAdd c.dqd_gates [("BA", -(3/1000))]))
      (seriesAdd c.dqd_gates [("BB", 3/1000)])).map Prod.fst
      = c.dqd_gates.map Prod.fst := kset _ _ k2 (kadd _ _ hBB)
  rw [hmk _ _ _ k3]
  have k4 : (setGates (setGates (setGates (setGates c.dqd_gates
      (seriesAdd c.dqd_gates [("BA", 3/1000)]))
      (seriesAdd c.dqd_gates [("BA", -(3/1000))]))
      (seriesAdd c.dqd_gates [("BB", 3/1000)]))
      (seriesAdd c.dqd_gates [("BB", -(3/1000))])).map Prod.fst
      = c.dqd_gates.map Prod.fst := kset _ _ k3 (kadd _ _ hBB)
  rw [hmk _ _ _ k4]
  exact setGates_restore _ _ k4 hnodup

/-- C10: `ChargeDiagram.measure_positions` and
`ChargeDiagram.calculate_gradient` restore the device's gate voltages: each
reads the gate voltages at entry and, before returning, commands the device
back to exactly those voltages, so the control state a caller observes is
unchanged across either call (for a device whose reported gates include the
scan/detuning gates `RFA`, `RFB`, `BA`, `BB`, with distinct gate names). -/
theorem C10_restore_gate_voltages (c : ChargeDiagram) (env : MeasureEnv)
    (hA : "RFA" ∈ c.dqd_gates.map Prod.fst)
    (hB : "RFB" ∈ c.dqd_gates.map Prod.fst)
    (hBA : "BA" ∈ c.dqd_gates.map Prod.fst)
    (hBB : "BB" ∈ c.dqd_gates.map Prod.fst)
    (hnodup : (c.dqd_gates.map Prod.fst).Nodup) :
    (c.measure_positions env).1.dqd_gates = c.dqd_gates ∧
    (c.calculate_gradient env).1.dqd_gates = c.dqd_gates :=
  ⟨measure_positions_dqd c env hA hB hnodup,
   calculate_gradient_dqd c env hA hB hBA hBB hnodup⟩

/-- Concrete double-dot state for the C10 witness. -/
def c10Diag : ChargeDiagram :=
  ⟨[("RFA", 0), ("RFB", 0), ("BA", 0), ("BB", 0)], 0, 0⟩

/-- Constant measurement collaborator for the C10 witness. -/
def c10Env : MeasureEnv := ⟨fun _ => 0, fun _ => 0⟩

/-- Witness for C10 at a concrete device state. -/
theorem C10_restore_gate_voltages_witness :
    ("RFA" ∈ c10Diag.dqd_gates.map Prod.fst ∧
     "RFB" ∈ c10Diag.dqd_gates.map Prod.fst ∧
     "BA" ∈ c10Diag.dqd_gates.map Prod.fst ∧
     "BB" ∈ c10Diag.dqd_gates.map Prod.fst ∧
     (c10Diag.dqd_gates.map Prod.fst).Nodup) ∧
    (c10Diag.measure_positions c10Env).1.dqd_gates = c10Diag.dqd_gates ∧
    (c10Diag.calculate_gradient c10Env).1.dqd_gates = c10Diag.dqd_gates :=
  ⟨⟨by decide, by decide, by decide, by decide, by decide⟩,
   C10_restore_gate_voltages c10Diag c10Env
     (by decide) (by decide) (by decide) (by decide) (by decide)⟩

theorem norm2_nonneg (v : ℝ × ℝ) : 0 ≤ norm2 v :=
  Real.sqrt_nonneg _

theorem norm2_smul (k x y : ℝ) (hk : 0 ≤ k) : norm2 (k * x, k * y) = k * norm2 (x, y) := by
  unfold norm2
  have h : (k * x) ^ 2 + (k * y) ^ 2 = k ^ 2 * (x ^ 2 + y ^ 2) := by ring
  simp only [h]
  rw [Real.sqrt_mul (sq_nonneg k), Real.sqrt_sq hk]

/-- Counterexample to C7 as stated: at the all-zero (rank-deficient)
gradient and the finite error vector `(1, 0)`, the `center_diagram` step
computation raises `LinAlgError` (`np.linalg.solve` on a singular matrix)
instead of producing a finite minimum-norm step. -/
theorem C7_counterexample :
    centerStep 0 0 0 0 1 0 = .error "LinAlgError: Singular matrix" := by
  simp [centerStep]

/-- C7 (amended): for an invertible gradient matrix and any finite error
vector, the `center_diagram` step proposal succeeds and never exceeds the
configured maximum Euclidean norm `3e-3`; when clipping occurs the result is
a positive rescaling of the unclipped solution (direction preserved).  A
singular gradient instead raises (see the counterexample). -/
theorem C7_clipped_step (g00 g01 g10 g11 e0 e1 : ℝ)
    (hdet : g00 * g11 - g01 * g10 ≠ 0) :
    ∃ du : ℝ × ℝ, centerStep g00 g01 g10 g11 e0 e1 = .ok du ∧
      norm2 du ≤ 3 / 1000 ∧
      ∃ t : ℝ, 0 < t ∧ du.1 = t * (solve2 g00 g01 g10 g11 e0 e1).1 ∧
        du.2 = t * (solve2 g00 g01 g10 g11 e0 e1).2 := by
  unfold centerStep
  rw [if_neg hdet]
  refine ⟨clipStep (solve2 g00 g01 g10 g11 e0 e1), rfl, ?_⟩
  set s := solve2 g00 g01 g10 g11 e0 e1 with hs
  unfold clipStep
  by_cases hc : norm2 s > 3 / 1000
  · rw [if_pos hc]
    have hnpos : (0 : ℝ) < norm2 s := lt_trans (by norm_num) hc
    have hk : (0 : ℝ) ≤ 3 / 1000 / norm2 s := by positivity
    have h1 : s.1 * (3 / 1000) / norm2 s = (3 / 1000 / norm2 s) * s.1 := by ring
    have h2 : s.2 * (3 / 1000) / norm2 s = (3 / 1000 / norm2 s) * s.2 := by ring
    constructor
    · rw [h1, h2, norm2_smul _ _ _ hk]
      rw [div_mul_cancel₀ _ (ne_of_gt hnpos)]
    · exact ⟨3 / 1000 / norm2 s, by positivity, by ring, by ring⟩
  · rw [if_neg hc]
    exact ⟨le_of_not_lt hc, 1, by norm_num, by ring, by ring⟩

/-- Witness for the amended C7 at the identity gradient and error `(1, 0)`. -/
theorem C7_clipped_step_witness :
    ((1 : ℝ) * 1 - 0 * 0 ≠ 0) ∧
    ∃ du : ℝ × ℝ, centerStep 1 0 0 1 1 0 = .ok du ∧
      norm2 du ≤ 3 / 1000 ∧
      ∃ t : ℝ, 0 < t ∧ du.1 = t * (solve2 1 0 0 1 1 0).1 ∧
        du.2 = t * (solve2 1 0 0 1 1 0).2 :=
  ⟨by norm_num, C7_clipped_step 1 0 0 1 1 0 (by norm_num)⟩

theorem appendOne_ne {α : Type} (l : List α) (v : α) : l ++ [v] ≠ l := by
  intro h
  have := congrArg List.length h
  simp at this

/-- C9: for either tuner variant, `is_tuned` appends the passed control
state to the tuned-voltages history exactly when it returns true, and a
call returning false leaves the history unchanged. -/
theorem C9_tuned_history (t : Tuner) (env : EvalEnv) (voltages : Series) :
    ((t.is_tuned env voltages).1 = true ↔
      (t.is_tuned env voltages).2.tuned_voltages = t.tuned_voltages ++ [voltages]) ∧
    ((t.is_tuned env voltages).1 = false ↔
      (t.is_tuned env voltages).2.tuned_voltages = t.tuned_voltages) := by
  cases t with
  | subset s =>
    have hne := appendOne_ne s.tuned_voltages voltages
    simp only [Tuner.is_tuned, SubsetTuner.is_tuned, Tuner.tuned_voltages]
    by_cases h : (s.solver.target.all fun e =>
        ltFillInf (fillna 0 (absO (subO e.2.desired (env.measured e.1)))) e.2.tolerance) = true
    · simp [h, hne.symm]
    · simp only [Bool.not_eq_true] at h
      simp [h, hne]
  | sensing s =>
    have hne := appendOne_ne s.tuned_voltages voltages
    simp only [Tuner.is_tuned, SensingDotTuner.is_tuned, Tuner.tuned_voltages]
    by_cases h1 : ((s.cheap_names.map fun n => (n, env.measured n)).any fun e =>
        leO e.2 (s.targetCol TargetRow.minimum e.1)) = true
    · by_cases h2 : ((s.cheap_names.map fun n => (n, env.measured n)).any fun e =>
          leO e.2 (s.targetCol TargetRow.cost_threshold e.1)) = true
      · simp [h1, h2, hne]
      · simp only [Bool.not_eq_true] at h2
        simp [h1, h2, hne]
    · simp only [Bool.not_eq_true] at h1
      simp [h1, hne.symm]

theorem lookup_map_keyfun {β : Type} (names : List String) (f : String → β) (k : String) :
    ((names.map fun n => (n, f n)).lookup k) =
      if names.contains k then some (f k) else none := by
  induction names with
  | nil => rfl
  | cons a rest ih =>
    by_cases hk : (k == a) = true
    · have : k = a := beq_iff_eq.mp hk
      subst this
      simp [List.lookup, List.contains_cons]
    · simp only [List.map_cons, List.lookup, hk, List.contains_cons]
      have : (a == k) = false := by
        rcases hbeq : a == k with _ | _
        · rfl
        · exact absurd (beq_iff_eq.mpr (beq_iff_eq.mp hbeq).symm) hk
      simp [this, ih]

theorem all_congrB {α : Type} {xs : List α} {p q : α → Bool}
    (h : ∀ x ∈ xs, p x = q x) : xs.all p = xs.all q := by
  induction xs with
  | nil => rfl
  | cons y ys ih =>
    rw [List.all_cons, List.all_cons, h y (List.mem_cons_self y ys),
        ih fun x hx => h x (List.mem_cons_of_mem y hx)]

theorem codeCond_eq_amended (row : TargetRow) (v : Option ℚ) :
    ltFillInf (fillna 0 (absO (subO row.desired v))) row.tolerance =
      (match row.tolerance with
       | none => true
       | some tol =>
         match row.desired, v with
         | some d, some mm => decide (|d - mm| < tol)
         | _, _ => decide ((0 : ℚ) < tol)) := by
  rcases row with ⟨d, tol, _, _⟩
  cases tol <;> cases d <;> cases v <;> simp [ltFillInf, fillna, absO, subO]

/-- C1 (amended): `SubsetTuner.is_tuned` forwards the evaluated sample to
the Solver via `update_after_step`, records the control state and the last
observed parameter values/covariances (reindexed by the previous record's
index), and returns true iff every target observable satisfies
`|desired − measured| < tolerance`, where a NaN tolerance is treated as
infinite and a NaN difference (NaN desired or NaN measurement) is treated
as zero error, i.e. satisfied exactly when the tolerance is positive. -/
theorem C1_subset_is_tuned (t : SubsetTuner) (voltages : Series)
    (measured variances : String → Option ℚ) :
    ((t.is_tuned voltages measured variances).2.solver.update_log =
        t.solver.update_log ++
          [(voltages.map fun e => (e.1, some e.2),
            (t.solver.target.map Prod.fst).map fun n => (n, measured n),
            (t.solver.target.map Prod.fst).map fun n => (n, variances n))]) ∧
    ((t.is_tuned voltages measured variances).2.last_voltage = some voltages) ∧
    ((t.is_tuned voltages measured variances).2.last_parameter_values =
        (t.last_parameter_values.map Prod.fst).map fun n =>
          (n, if (t.solver.target.map Prod.fst).contains n then measured n else none)) ∧
    ((t.is_tuned voltages measured variances).2.last_parameter_covariances =
        (t.last_parameter_values.map Prod.fst).map fun n =>
          (n, if (t.solver.target.map Prod.fst).contains n then variances n else none)) ∧
    ((t.is_tuned voltages measured variances).1 =
        amendedTunedCond t.solver.target measured) := by
  have hcond : (t.solver.target.all fun e =>
      ltFillInf (fillna 0 (absO (subO e.2.desired (measured e.1)))) e.2.tolerance) =
      amendedTunedCond t.solver.target measured := by
    unfold amendedTunedCond
    exact all_congrB fun e _ => codeCond_eq_amended e.2 (measured e.1)
  have hjoin : ∀ (f : String → Option ℚ) (n : String),
      (((t.solver.target.map Prod.fst).map fun n2 => (n2, f n2)).lookup n).join =
        if (t.solver.target.map Prod.fst).contains n then f n else none := by
    intro f n
    rw [lookup_map_keyfun]
    rcases hc : (t.solver.target.map Prod.fst).contains n with _ | _ <;> simp
  have hmap : ∀ f : String → Option ℚ,
      ((t.last_parameter_values.map Prod.fst).map fun n =>
        (n, (((t.solver.target.map Prod.fst).map fun n2 => (n2, f n2)).lookup n).join)) =
      (t.last_parameter_values.map Prod.fst).map fun n =>
        (n, if (t.solver.target.map Prod.fst).contains n then f n else none) :=
    fun f => List.map_congr_left fun n _ => by rw [hjoin f n]
  unfold SubsetTuner.is_tuned
  by_cases h : (t.solver.target.all fun e =>
      ltFillInf (fillna 0 (absO (subO e.2.desired (measured e.1)))) e.2.tolerance) = true
  · rw [if_pos h]
    exact ⟨rfl, rfl, hmap measured, hmap variances, (hcond.symm.trans h).symm⟩
  · rw [if_neg h]
    simp only [Bool.not_eq_true] at h
    exact ⟨rfl, rfl, hmap measured, hmap variances, (hcond.symm.trans h).symm⟩

/-- A `SubsetTuner` whose single target observable has NaN desired value and
tolerance 1. -/
def c1Tuner : SubsetTuner :=
  { gates := ["g"],
    solver := { target := [("p", ⟨none, some 1, none, none⟩)],
                current_position := [("g", 0)],
                isNewton := false,
                gradient_estimators := [],
                suggested := [],
                update_log := [] },
    tuned_voltages := [],
    last_voltage := none,
    last_parameter_values := [("p", none)],
    last_parameter_covariances := [("p", none)] }

/-- The evaluator sample used against `c1Tuner`: observable `p` measures 5. -/
def c1Measured : String → Option ℚ := fun _ => some 5

/-- Counterexample to C1 as stated: with a NaN desired value, tolerance 1
and measurement 5, the code returns true (`fillna(0.)` treats the NaN
difference as zero error), while the claimed criterion
`|desired − measured| < tolerance` (NaN tolerance ⇒ satisfied) is not met,
so the claimed "if and only if" fails. -/
theorem C1_counterexample :
    (c1Tuner.is_tuned [("g", 0)] c1Measured c1Measured).1 = true ∧
    claimTunedCond c1Tuner.solver.target c1Measured = false := by
  exact ⟨by decide, by decide⟩

theorem anyLe_iff (t : SensingDotTuner) (env : EvalEnv) (f : TargetRow → Option ℚ) :
    (((t.cheap_names.map fun n => (n, env.measured n)).any fun e =>
        leO e.2 (t.targetCol f e.1)) = true) ↔ cheapBreaches t env f := by
  unfold cheapBreaches
  rw [List.any_eq_true]
  constructor
  · rintro ⟨e, he, hle⟩
    rcases List.mem_map.mp he with ⟨n, hn, rfl⟩
    rcases hm : env.measured n with _ | x
    · rw [hm] at hle; simp [leO] at hle
    · rcases ht : t.targetCol f n with _ | y
      · rw [hm, ht] at hle; simp [leO] at hle
      · rw [hm, ht] at hle
        exact ⟨n, hn, x, y, hm, ht, of_decide_eq_true hle⟩
  · rintro ⟨n, hn, x, y, hm, ht, hxy⟩
    exact ⟨(n, env.measured n), List.mem_map.mpr ⟨n, hn, rfl⟩, by simp [hm, ht, leO, hxy]⟩

/-- C6 (amended): `SensingDotTuner.is_tuned` runs the expensive evaluators
iff the cheap sample has some observable at or below its `minimum`
threshold AND some observable at or below its `cost_threshold` (when every
cost threshold is at most its minimum this reduces to the cost-threshold
breach alone, but the minimum-breach conjunct is required in general); it
returns false iff some cheap observable is at or below its `minimum` — the
cheap sample alone decides tuned/untuned. -/
theorem C6_sensing_escalation (t : SensingDotTuner) (voltages : Series) (env : EvalEnv) :
    ((t.is_tuned voltages env).expensive_run = true ↔
      (cheapBreaches t env TargetRow.minimum ∧
       cheapBreaches t env TargetRow.cost_threshold)) ∧
    ((t.is_tuned voltages env).tuned = false ↔ cheapBreaches t env TargetRow.minimum) := by
  have hmin := anyLe_iff t env TargetRow.minimum
  have hcost := anyLe_iff t env TargetRow.cost_threshold
  unfold SensingDotTuner.is_tuned
  by_cases h1 : ((t.cheap_names.map fun n => (n, env.measured n)).any fun e =>
      leO e.2 (t.targetCol TargetRow.minimum e.1)) = true
  · by_cases h2 : ((t.cheap_names.map fun n => (n, env.measured n)).any fun e =>
        leO e.2 (t.targetCol TargetRow.cost_threshold e.1)) = true
    · rw [if_pos h1, if_pos h2]
      exact ⟨⟨fun _ => ⟨hmin.mp h1, hcost.mp h2⟩, fun _ => rfl⟩,
             ⟨fun _ => hmin.mp h1, fun _ => rfl⟩⟩
    · rw [if_pos h1, if_neg h2]
      refine ⟨⟨fun hfalse => absurd hfalse (by simp), ?_⟩,
              ⟨fun _ => hmin.mp h1, fun _ => rfl⟩⟩
      rintro ⟨-, hc⟩
      exact absurd (hcost.mpr hc) h2
  · rw [if_neg h1]
    refine ⟨⟨fun hfalse => absurd hfalse (by simp), ?_⟩,
            ⟨fun htrue => absurd htrue (by simp), fun hb => absurd (hmin.mpr hb) h1⟩⟩
    rintro ⟨hm, -⟩
    exact absurd (hmin.mpr hm) h1

/-- A `SensingDotTuner` whose target observable has minimum 0 but the laxer
cost threshold 2 (the code assumes cost thresholds are stricter). -/
def c6Tuner : SensingDotTuner :=
  { gates := ["g"],
    solver := { target := [("p", ⟨none, none, some 0, some 2⟩)],
                current_position := [("g", 0)],
                isNewton := false,
                gradient_estimators := [],
                suggested := [],
                update_log := [] },
    tuned_voltages := [],
    last_voltage := none,
    last_parameter_values := [("p", none)],
    last_parameter_covariances := [("p", none)],
    cheap_names := ["p"],
    expensive_names := ["p"] }

/-- Evaluation collaborator for the C6 counterexample: every observable
measures 1, between the minimum 0 and the cost threshold 2. -/
def c6Env : EvalEnv :=
  ⟨fun _ => some 1, fun _ => some 1, fun _ => some 1, fun _ => some 1⟩

/-- Counterexample to C6 as stated: the cheap measurement 1 is at or below
the cost threshold 2, yet the expensive evaluators are not run (the code
escalates only when the minimum threshold is also breached, and 1 > 0), so
"escalates if and only if the cheap measurement breaches cost_threshold"
fails. -/
theorem C6_counterexample :
    (c6Tuner.is_tuned [("g", 0)] c6Env).expensive_run = false ∧
    cheapBreaches c6Tuner c6Env TargetRow.cost_threshold := by
  refine ⟨by decide, ⟨"p", by decide, 1, 2, rfl, rfl, by norm_num⟩⟩

deriving instance DecidableEq for Except

/-- Evaluation collaborator returning NaN everywhere; used by witnesses
whose branch never consults an evaluator. -/
def trivialEnv : EvalEnv :=
  ⟨fun _ => none, fun _ => none, fun _ => none, fun _ => none⟩

/-- C4: `iterate()` on a complete hierarchy (stage index equals the
hierarchy length) or when the `ready_to_tune` consistency check fails
raises a fatal error; the `.error` result carries no new state and no
device command, so nothing is commanded and no transition happens. -/
theorem C4_fatal_iterate (a : Autotuner) (env : EvalEnv)
    (h : a.is_tuning_complete = true ∨ a.ready_to_tune = .ok false) :
    ∃ e, a.iterate env = .error e := by
  unfold Autotuner.iterate
  rcases hr : a.ready_to_tune with e | b
  · exact ⟨e, rfl⟩
  · rcases h with hc | hf
    · cases b
      · exact ⟨"The setup of the Autotuner class is incomplete!", by simp⟩
      · exact ⟨"The tuning is already complete!", by simp [hc]⟩
    · rw [hr] at hf
      injection hf with hb
      subst hb
      exact ⟨"The setup of the Autotuner class is incomplete!", by simp⟩

/-- Autotuner with an empty hierarchy and index 0: tuning is complete. -/
def c4Auto : Autotuner := ⟨[("a", 0)], [], 0, false, none, none⟩

/-- Witness for C4 at a concrete completed Autotuner state. -/
theorem C4_fatal_iterate_witness :
    c4Auto.is_tuning_complete = true ∧ ∃ e, c4Auto.iterate trivialEnv = .error e :=
  ⟨by decide, C4_fatal_iterate c4Auto trivialEnv (Or.inl (by decide))⟩

/-- C2 (amended): when a pending ControlVector exists (and `iterate` does
not raise: setup coherent, tuning incomplete, first stage has a recorded
control state), one `iterate()` call commands the device to the pending
vector, resets the stage index to 0 and clears the pending vector; the
awaiting-decision flag is left unchanged (the `APPLY_VOLTAGE` branch never
writes `_current_tuner_status`). -/
theorem C2_apply_voltage (a : Autotuner) (env : EvalEnv) (v : Series)
    (hv : a.voltage_to_set = some v)
    (hready : a.ready_to_tune = .ok true)
    (hcomp : a.is_tuning_complete = false)
    (ht0 : ∃ t0, a.tuning_hierarchy.head? = some t0 ∧ t0.last_voltage ≠ none) :
    ∃ a1 cmds, a.iterate env = .ok (a1, cmds) ∧
      a1.experiment_gates = setGates a.experiment_gates v ∧
      a1.current_tuner_index = 0 ∧
      a1.voltage_to_set = none ∧
      a1.current_tuner_status = a.current_tuner_status ∧
      cmds.head? = some (Cmd.setV v) := by
  obtain ⟨t0, ht0h, ht0v⟩ := ht0
  rcases hlv : t0.last_voltage with _ | lv
  · exact absurd hlv ht0v
  unfold Autotuner.iterate
  simp only [hready, hcomp, hv, ht0h]
  simp only [hlv]
  exact ⟨_, _, rfl, rfl, rfl, rfl, rfl, rfl⟩

/-- A coherent single-stage `SubsetTuner` used by the Autotuner-state
witnesses and counterexamples. -/
def cTunerOK : SubsetTuner :=
  { gates := ["a"],
    solver := { target := [],
                current_position := [("a", 0)],
                isNewton := false,
                gradient_estimators := [],
                suggested := [("a", 1)],
                update_log := [] },
    tuned_voltages := [],
    last_voltage := some [("a", 0)],
    last_parameter_values := [],
    last_parameter_covariances := [] }

/-- Autotuner state with a pending ControlVector AND the awaiting-decision
flag set (constructible via `Autotuner.__init__`). -/
def c2Auto : Autotuner :=
  ⟨[("a", 0)], [.subset cTunerOK], 0, true, some [("a", 1)], none⟩

/-- Counterexample to C2 as stated: from a state with a pending
ControlVector and the awaiting-decision flag set, `iterate()` succeeds but
leaves the flag set — the `APPLY_VOLTAGE` transition does not clear it. -/
theorem C2_counterexample :
    (c2Auto.iterate trivialEnv).map (fun r => r.1.current_tuner_status) =
      .ok true := by
  decide

/-- Witness for the amended C2 at a concrete pending-vector state. -/
theorem C2_apply_voltage_witness :
    c2Auto.voltage_to_set = some [("a", 1)] ∧
    c2Auto.ready_to_tune = .ok true ∧
    c2Auto.is_tuning_complete = false ∧
    ∃ a1 cmds, c2Auto.iterate trivialEnv = .ok (a1, cmds) ∧
      a1.experiment_gates = setGates c2Auto.experiment_gates [("a", 1)] ∧
      a1.current_tuner_index = 0 ∧
      a1.voltage_to_set = none ∧
      a1.current_tuner_status = c2Auto.current_tuner_status ∧
      cmds.head? = some (Cmd.setV [("a", 1)]) :=
  ⟨rfl, by decide, by decide,
   C2_apply_voltage c2Auto trivialEnv [("a", 1)] rfl (by decide) (by decide)
     ⟨Tuner.subset cTunerOK, rfl, by decide⟩⟩

/-- C3: with no pending ControlVector and the awaiting-decision flag clear,
one `iterate()` call runs `is_tuned` on the active stage with the device's
currently read control state; if it returns true the stage index advances
by exactly one (possibly reaching the completed state), and if it returns
false the index is unchanged and the awaiting-decision flag is set. -/
theorem C3_decide_transition (a : Autotuner) (env : EvalEnv)
    (hv : a.voltage_to_set = none)
    (hflag : a.current_tuner_status = false)
    (hready : a.ready_to_tune = .ok true)
    (hidx : a.current_tuner_index < a.tuning_hierarchy.length) :
    ∃ t, a.tuning_hierarchy[a.current_tuner_index]? = some t ∧
      ∃ a1 cmds, a.iterate env = .ok (a1, cmds) ∧
        a1.tuning_hierarchy =
          a.tuning_hierarchy.set a.current_tuner_index (t.is_tuned env a.experiment_gates).2 ∧
        a1.voltage_to_set = none ∧
        ((t.is_tuned env a.experiment_gates).1 = true →
          a1.current_tuner_index = a.current_tuner_index + 1 ∧
          a1.current_tuner_status = false) ∧
        ((t.is_tuned env a.experiment_gates).1 = false →
          a1.current_tuner_index = a.current_tuner_index ∧
          a1.current_tuner_status = true) := by
  have hcomp : a.is_tuning_complete = false := by
    unfold Autotuner.is_tuning_complete
    exact beq_eq_false_iff_ne.mpr (Nat.ne_of_lt hidx)
  obtain ⟨t, hget⟩ : ∃ t, a.tuning_hierarchy[a.current_tuner_index]? = some t :=
    ⟨_, List.getElem?_eq_getElem hidx⟩
  refine ⟨t, hget, ?_⟩
  unfold Autotuner.iterate
  simp only [hready, hcomp, hv, hflag, hget]
  by_cases hr : (t.is_tuned env a.experiment_gates).1 = true
  · simp only [hr, if_true]
    exact ⟨_, _, rfl, rfl, rfl, fun _ => ⟨rfl, rfl⟩,
           fun hfalse => absurd hfalse (by simp)⟩
  · simp only [Bool.not_eq_true] at hr
    simp only [hr, Bool.false_eq_true, if_false]
    exact ⟨_, _, rfl, rfl, rfl, fun htrue => htrue.elim,
           fun _ => ⟨rfl, rfl⟩⟩

/-- Coherent single-stage Autotuner in the `DECIDE` state. -/
def c3Auto : Autotuner := ⟨[("a", 0)], [.subset cTunerOK], 0, false, none, none⟩

/-- Witness for C3 at a concrete `DECIDE`-state Autotuner. -/
theorem C3_decide_transition_witness :
    (c3Auto.voltage_to_set = none ∧ c3Auto.current_tuner_status = false ∧
     c3Auto.ready_to_tune = .ok true ∧
     c3Auto.current_tuner_index < c3Auto.tuning_hierarchy.length) ∧
    ∃ t, c3Auto.tuning_hierarchy[c3Auto.current_tuner_index]? = some t ∧
      ∃ a1 cmds, c3Auto.iterate trivialEnv = .ok (a1, cmds) ∧
        a1.tuning_hierarchy =
          c3Auto.tuning_hierarchy.set c3Auto.current_tuner_index
            (t.is_tuned trivialEnv c3Auto.experiment_gates).2 ∧
        a1.voltage_to_set = none ∧
        ((t.is_tuned trivialEnv c3Auto.experiment_gates).1 = true →
          a1.current_tuner_index = c3Auto.current_tuner_index + 1 ∧
          a1.current_tuner_status = false) ∧
        ((t.is_tuned trivialEnv c3Auto.experiment_gates).1 = false →
          a1.current_tuner_index = c3Auto.current_tuner_index ∧
          a1.current_tuner_status = true) :=
  ⟨⟨rfl, rfl, by decide, by decide⟩,
   C3_decide_transition c3Auto trivialEnv rfl rfl (by decide) (by decide)⟩

theorem saveCmds_getLast (A : Autotuner) (p : String)
    (hp : A.hdf5_storage_path = some p) :
    A.saveCmds.getLast? = some (Cmd.checkpoint A) := by
  unfold Autotuner.saveCmds
  rw [hp]
  simp

theorem cons_saveCmds_getLast (c : Cmd) (A : Autotuner) (p : String)
    (hp : A.hdf5_storage_path = some p) :
    (c :: A.saveCmds).getLast? = some (Cmd.checkpoint A) := by
  unfold Autotuner.saveCmds
  rw [hp]
  simp

/-- C8 (amended): when an HDF5 storage path is configured, every
`iterate()` call that returns without raising ends its command sequence
with a checkpoint of the full resulting Autotuner state (stage index,
awaiting-decision flag, pending vector, and the hierarchy with every
stage's solver/estimator state). -/
theorem C8_checkpoint (a : Autotuner) (env : EvalEnv) (p : String)
    (hpath : a.hdf5_storage_path = some p) (a1 : Autotuner) (cmds : List Cmd)
    (hok : a.iterate env = .ok (a1, cmds)) :
    cmds.getLast? = some (Cmd.checkpoint a1) := by
  unfold Autotuner.iterate at hok
  rcases hr : a.ready_to_tune with e | b <;> simp only [hr] at hok
  · exact Except.noConfusion hok
  cases b
  · exact Except.noConfusion hok
  · rcases hcb : a.is_tuning_complete with _ | _ <;> simp only [hcb] at hok
    · rcases hv2 : a.voltage_to_set with _ | v <;> simp only [hv2] at hok
      · rcases hst : a.current_tuner_status with _ | _ <;> simp only [hst] at hok
        · rcases hg : a.tuning_hierarchy[a.current_tuner_index]? with _ | t <;>
            simp only [hg] at hok
          · exact Except.noConfusion hok
          · by_cases hr2 : (t.is_tuned env a.experiment_gates).1 = true
            · simp only [hr2] at hok
              injection hok with h
              injection h with h1 h2
              subst h1
              subst h2
              exact saveCmds_getLast _ p hpath
            · simp only [Bool.not_eq_true] at hr2
              simp only [hr2] at hok
              injection hok with h
              injection h with h1 h2
              subst h1
              subst h2
              exact saveCmds_getLast _ p hpath
        · rcases hg : a.tuning_hierarchy[a.current_tuner_index]? with _ | t <;>
            simp only [hg] at hok
          · exact Except.noConfusion hok
          · injection hok with h
            injection h with h1 h2
            subst h1
            subst h2
            exact saveCmds_getLast _ p hpath
      · rcases hh : a.tuning_hierarchy.head? with _ | t0 <;> simp only [hh] at hok
        · exact Except.noConfusion hok
        · rcases hlv : t0.last_voltage with _ | lv <;> simp only [hlv] at hok
          · exact Except.noConfusion hok
          · injection hok with h
            injection h with h1 h2
            subst h1
            subst h2
            exact cons_saveCmds_getLast _ _ p hpath
    · exact Except.noConfusion hok

/-- `PROPOSE`-state Autotuner with no HDF5 storage path configured. -/
def c8Auto : Autotuner := ⟨[("a", 0)], [.subset cTunerOK], 0, true, none, none⟩

/-- Counterexample to C8 as stated: with no HDF5 storage path configured,
`iterate()` returns without raising and issues no checkpoint command at all
(`save_current_status` is a no-op), so the state is not checkpointed after
every successful call. -/
theorem C8_counterexample :
    (c8Auto.iterate trivialEnv).map (fun r => r.2) = .ok ([] : List Cmd) := by
  decide

/-- `PROPOSE`-state Autotuner with an HDF5 storage path configured. -/
def c8wAuto : Autotuner :=
  ⟨[("a", 0)], [.subset cTunerOK], 0, true, none, some "log"⟩

/-- The state `c8wAuto.iterate` produces. -/
def c8wResult : Autotuner :=
  ⟨[("a", 0)], [.subset cTunerOK], 0, false, some [("a", 1)], some "log"⟩

/-- Witness for the amended C8 at a concrete configured Autotuner. -/
theorem C8_checkpoint_witness :
    c8wAuto.hdf5_storage_path = some "log" ∧
    c8wAuto.iterate trivialEnv = .ok (c8wResult, [Cmd.checkpoint c8wResult]) ∧
    [Cmd.checkpoint c8wResult].getLast? = some (Cmd.checkpoint c8wResult) :=
  ⟨rfl, by decide,
   C8_checkpoint c8wAuto trivialEnv "log" rfl c8wResult [Cmd.checkpoint c8wResult]
     (by decide)⟩

theorem subsetOfB_iff (xs ys : List String) :
    subsetOfB xs ys = true ↔ ∀ k ∈ xs, k ∈ ys := by
  unfold subsetOfB
  rw [List.all_eq_true]
  exact ⟨fun h k hk => List.elem_iff.mp (h k hk), fun h k hk => List.elem_iff.mpr (h k hk)⟩

/-- Coherence of one gradient estimator as the `ready_to_tune` loop body
actually checks it: the recorded operating point uses known gates, and a
`SubsetTuner`'s declared gates appear in the estimator's operating point. -/
def geCoherent (gates : List String) (sub : Option (List String))
    (ge : GradientEstimator) : Prop :=
  (∀ pos, ge.current_position = some pos → ∀ k ∈ pos.map Prod.fst, k ∈ gates) ∧
  (∀ gs, sub = some gs → ∀ pos, ge.current_position = some pos →
    ∀ k ∈ gs, k ∈ pos.map Prod.fst)

/-- Coherence of one stage as `ready_to_tune` actually checks it. -/
def stageCoherent (gates : List String) (t : Tuner) : Prop :=
  (∀ lv, t.last_voltage = some lv → ∀ k ∈ lv.map Prod.fst, k ∈ gates) ∧
  (∀ k ∈ t.solver.current_position.map Prod.fst, k ∈ gates) ∧
  (t.solver.isNewton = true →
    ∀ ge ∈ t.solver.gradient_estimators, geCoherent gates t.gatesIfSubset ge)

/-- No stage triggers the `AttributeError` of the `ready_to_tune` loop: a
`SubsetTuner` backed by a `NewtonSolver` has a recorded operating point on
each of its gradient estimators. -/
def noAttributeError (a : Autotuner) : Prop :=
  ∀ t ∈ a.tuning_hierarchy, t.solver.isNewton = true →
    ∀ gs, t.gatesIfSubset = some gs →
      ∀ ge ∈ t.solver.gradient_estimators, ge.current_position ≠ none

theorem geCheck_ok (gates : List String) (sub : Option (List String))
    (ge : GradientEstimator) (h : ∀ gs, sub = some gs → ge.current_position ≠ none) :
    ∃ b, geCheck gates sub ge = .ok b ∧
      (b = true ↔ geCoherent gates sub ge) := by
  unfold geCheck geCoherent
  rcases sub with _ | gs
  · rcases hp : ge.current_position with _ | pos
    · exact ⟨true, rfl, by simp⟩
    · refine ⟨_, rfl, ?_⟩
      rw [subsetOfB_iff]
      constructor
      · intro hall
        refine ⟨fun pos2 hpos2 => ?_, by simp⟩
        injection hpos2 with he
        exact he ▸ hall
      · intro hco
        exact hco.1 pos rfl
  · rcases hp : ge.current_position with _ | pos
    · exact absurd hp (h gs rfl)
    · refine ⟨_, rfl, ?_⟩
      rw [Bool.and_eq_true, subsetOfB_iff, subsetOfB_iff]
      constructor
      · rintro ⟨h1, h2⟩
        constructor
        · intro pos2 hpos2
          injection hpos2 with he
          exact he ▸ h1
        · intro gs2 hgs2 pos2 hpos2
          injection hgs2 with hgse
          injection hpos2 with he
          exact hgse ▸ he ▸ h2
      · rintro ⟨h1, h2⟩
        exact ⟨h1 pos rfl, h2 gs rfl pos rfl⟩

theorem geChecks_ok (gates : List String) (sub : Option (List String))
    (ges : List GradientEstimator)
    (h : ∀ gs, sub = some gs → ∀ ge ∈ ges, ge.current_position ≠ none) :
    ∃ b, geChecks gates sub ges = .ok b ∧
      (b = true ↔ ∀ ge ∈ ges, geCoherent gates sub ge) := by
  induction ges with
  | nil => exact ⟨true, rfl, by simp⟩
  | cons ge rest ih =>
    obtain ⟨b1, hb1, hiff1⟩ := geCheck_ok gates sub ge
      (fun gs hgs => h gs hgs ge (by simp))
    obtain ⟨b2, hb2, hiff2⟩ := ih fun gs hgs ge2 hge2 => h gs hgs ge2 (by simp [hge2])
    refine ⟨b1 && b2, ?_, ?_⟩
    · unfold geChecks
      rw [hb1, hb2]
    · rw [Bool.and_eq_true, hiff1, hiff2]
      constructor
      · rintro ⟨h1, h2⟩ ge2 hge2
        rcases List.mem_cons.mp hge2 with he | he
        · exact he ▸ h1
        · exact h2 ge2 he
      · intro hall
        exact ⟨hall ge (by simp), fun ge2 hge2 => hall ge2 (by simp [hge2])⟩

theorem tunerCheck_ok (gates : List String) (t : Tuner)
    (h : t.solver.isNewton = true → ∀ gs, t.gatesIfSubset = some gs →
      ∀ ge ∈ t.solver.gradient_estimators, ge.current_position ≠ none) :
    ∃ b, tunerCheck gates t = .ok b ∧ (b = true ↔ stageCoherent gates t) := by
  have hok1 : ((match t.last_voltage with
      | some lv => subsetOfB (lv.map Prod.fst) gates
      | none => true) = true) ↔
      (∀ lv, t.last_voltage = some lv → ∀ k ∈ lv.map Prod.fst, k ∈ gates) := by
    rcases hl : t.last_voltage with _ | lv
    · show true = true ↔ _
      simp
    · show subsetOfB (lv.map Prod.fst) gates = true ↔ _
      rw [subsetOfB_iff]
      exact ⟨fun hh lv2 h2 => by injection h2 with he; exact he ▸ hh,
             fun hh => hh lv rfl⟩
  unfold tunerCheck stageCoherent
  rcases hn : t.solver.isNewton with _ | _
  · refine ⟨_, rfl, ?_⟩
    simp only [Bool.and_eq_true, and_true]
    rw [hok1, subsetOfB_iff]
    constructor
    · rintro ⟨h1, h2⟩
      exact ⟨h1, h2, fun hfalse => absurd hfalse (by simp)⟩
    · rintro ⟨h1, h2, -⟩
      exact ⟨h1, h2⟩
  · obtain ⟨b3, hb3, hiff3⟩ := geChecks_ok gates t.gatesIfSubset
      t.solver.gradient_estimators (fun gs hgs => h hn gs hgs)
    rw [hb3]
    refine ⟨_, rfl, ?_⟩
    simp only [Bool.and_eq_true]
    rw [hok1, subsetOfB_iff]
    constructor
    · rintro ⟨⟨h1, h2⟩, h3⟩
      exact ⟨h1, h2, fun _ => hiff3.mp h3⟩
    · rintro ⟨h1, h2, h3⟩
      exact ⟨⟨h1, h2⟩, hiff3.mpr (h3 trivial)⟩

theorem hierarchyChecks_ok (gates : List String) (ts : List Tuner)
    (h : ∀ t ∈ ts, t.solver.isNewton = true → ∀ gs, t.gatesIfSubset = some gs →
      ∀ ge ∈ t.solver.gradient_estimators, ge.current_position ≠ none) :
    ∃ b, hierarchyChecks gates ts = .ok b ∧
      (b = true ↔ ∀ t ∈ ts, stageCoherent gates t) := by
  induction ts with
  | nil => exact ⟨true, rfl, by simp⟩
  | cons t rest ih =>
    obtain ⟨b1, hb1, hiff1⟩ := tunerCheck_ok gates t (h t (by simp))
    obtain ⟨b2, hb2, hiff2⟩ := ih fun t2 ht2 => h t2 (by simp [ht2])
    refine ⟨b1 && b2, ?_, ?_⟩
    · unfold hierarchyChecks
      rw [hb1, hb2]
    · rw [Bool.and_eq_true, hiff1, hiff2]
      constructor
      · rintro ⟨h1, h2⟩ t2 ht2
        rcases List.mem_cons.mp ht2 with he | he
        · exact he ▸ h1
        · exact h2 t2 he
      · intro hall
        exact ⟨hall t (by simp), fun t2 ht2 => hall t2 (by simp [ht2])⟩

/-- C5 (amended): with the pending-vector assertion satisfied and no stage
triggering the loop's `AttributeError`, `ready_to_tune` returns true iff
every stage is coherent in exactly the sense the code checks: the stage's
last-known control state, its Solver's operating point and every recorded
gradient-estimator operating point use channel names known to the device,
and each `SubsetTuner`'s declared channel subset is contained in each of
its gradient estimators' operating-point channels — the declared subset is
checked against the estimators' channels, not directly against the
device's. -/
theorem C5_ready_iff (a : Autotuner)
    (hassert : a.assertOk = true)
    (hnothrow : noAttributeError a) :
    a.ready_to_tune = .ok true ↔
      ∀ t ∈ a.tuning_hierarchy,
        stageCoherent (a.experiment_gates.map Prod.fst) t := by
  unfold Autotuner.ready_to_tune
  rw [hassert]
  obtain ⟨b, hb, hiff⟩ := hierarchyChecks_ok (a.experiment_gates.map Prod.fst)
    a.tuning_hierarchy hnothrow
  show hierarchyChecks (a.experiment_gates.map Prod.fst) a.tuning_hierarchy
      = .ok true ↔ _
  rw [hb]
  constructor
  · intro hh
    injection hh with hb2
    exact hiff.mp hb2
  · intro hh
    rw [hiff.mpr hh]

/-- Per-stage coherence exactly as claim C5 words it: every referenced
channel name — last-known control state, Solver operating point, recorded
gradient-estimator operating points, and a SubsetTuner's declared subset —
is a subset of the device's reported channel names. -/
def claimCoherent (gates : List String) (t : Tuner) : Bool :=
  (match t.last_voltage with
   | some lv => subsetOfB (lv.map Prod.fst) gates
   | none => true)
  && subsetOfB (t.solver.current_position.map Prod.fst) gates
  && (t.solver.gradient_estimators.all fun ge =>
       match ge.current_position with
       | some pos => subsetOfB (pos.map Prod.fst) gates
       | none => true)
  && (match t.gatesIfSubset with
      | some gs => subsetOfB gs gates
      | none => true)

/-- SubsetTuner declaring gates `a`,`b` (both known to the device) whose
gradient estimator's operating point only covers `a`. -/
def c5SubTuner : SubsetTuner :=
  { gates := ["a", "b"],
    solver := { target := [],
                current_position := [("a", 0)],
                isNewton := true,
                gradient_estimators := [⟨some [("a", 0)]⟩],
                suggested := [],
                update_log := [] },
    tuned_voltages := [],
    last_voltage := some [("a", 0)],
    last_parameter_values := [],
    last_parameter_covariances := [] }

/-- Autotuner over `c5SubTuner` with device channels `a`,`b`. -/
def c5Auto : Autotuner :=
  ⟨[("a", 0), ("b", 0)], [.subset c5SubTuner], 0, false, none, none⟩

/-- Counterexample to C5 as stated: every channel name referenced in the
hierarchy is a subset of the device's reported channels, yet
`ready_to_tune` returns false — the SubsetTuner's declared subset is
checked against its gradient estimator's operating-point channels, not
against the device's channel set, so the claimed "if and only if" fails. -/
theorem C5_counterexample :
    c5Auto.ready_to_tune = .ok false ∧
    c5Auto.tuning_hierarchy.all
      (claimCoherent (c5Auto.experiment_gates.map Prod.fst)) = true :=
  ⟨by decide, by decide⟩

/-- Witness for the amended C5 at the same concrete Autotuner. -/
theorem C5_ready_iff_witness :
    c5Auto.assertOk = true ∧
    (c5Auto.ready_to_tune = .ok true ↔
      ∀ t ∈ c5Auto.tuning_hierarchy,
        stageCoherent (c5Auto.experiment_gates.map Prod.fst) t) :=
  ⟨by decide,
   C5_ready_iff c5Auto (by decide) (by
     intro t ht
     simp only [c5Auto, List.mem_singleton] at ht
     subst ht
     intro _ gs hgs ge hge
     simp only [Tuner.solver, c5SubTuner, List.mem_singleton] at hge
     subst hge
     decide)⟩
